import Mathlib

/-!
# Verification of the yaz-scrape manuscript search client

Shallow embedding of the query-building, URL-codec, pagination, export and
CSV logic of the yaz-scrape React application (`src/App.tsx`), together with
proofs of the specified properties.

JavaScript numbers that can be `NaN` are modelled by `JSNum`; JavaScript
truthiness, `parseInt`, `Number.prototype.toString`, `String.prototype.split`
and `Array.prototype.join` are modelled explicitly.
-/

namespace YazScrape

/-- A JavaScript number as it occurs in this program: either an integer value
or `NaN` (produced by `parseInt` on malformed text). -/
inductive JSNum where
  | nan : JSNum
  | int (v : Int) : JSNum
deriving DecidableEq, Repr

/-- JavaScript truthiness of a number: `0` and `NaN` are falsy. -/
def JSNum.truthy : JSNum → Bool
  | .nan => false
  | .int v => v != 0

/-- JavaScript subtraction; any operation on `NaN` yields `NaN`. -/
def JSNum.sub : JSNum → JSNum → JSNum
  | .int a, .int b => .int (a - b)
  | _, _ => .nan

/-- JavaScript multiplication; any operation on `NaN` yields `NaN`. -/
def JSNum.mul : JSNum → JSNum → JSNum
  | .int a, .int b => .int (a * b)
  | _, _ => .nan

/-- JavaScript `>=` comparison: every comparison with `NaN` is `false`. -/
def JSNum.geB : JSNum → JSNum → Bool
  | .int a, .int b => a ≥ b
  | _, _ => false

/-- JavaScript `>` comparison: every comparison with `NaN` is `false`. -/
def JSNum.gtB : JSNum → JSNum → Bool
  | .int a, .int b => a > b
  | _, _ => false

/-- JavaScript `!==` on numbers: `NaN` is unequal to everything. -/
def JSNum.neB : JSNum → JSNum → Bool
  | .int a, .int b => a != b
  | _, _ => true

/-- JavaScript `Math.min`: `NaN` if either argument is `NaN`. -/
def JSNum.minJ : JSNum → JSNum → JSNum
  | .int a, .int b => .int (min a b)
  | _, _ => .nan

/-- Fuel-indexed decimal digit expansion; the fuel only has to exceed the
number being printed, and `natToChars` always supplies enough. -/
def natToCharsAux : Nat → Nat → List Char
  | 0, _ => []
  | fuel + 1, n =>
    if n < 10 then [Nat.digitChar n]
    else natToCharsAux fuel (n / 10) ++ [Nat.digitChar (n % 10)]

/-- Decimal digit characters of a natural number, most significant first
(the digits of JavaScript `Number.prototype.toString` for integers). -/
def natToChars (n : Nat) : List Char := natToCharsAux (n + 1) n

/-- Decimal string of a natural number. -/
def natToStr (n : Nat) : String := ⟨natToChars n⟩

/-- Model of JavaScript `Number.prototype.toString` on the numbers this
program stringifies: `NaN` prints as `"NaN"`, integers in decimal. -/
def numToString : JSNum → String
  | .nan => "NaN"
  | .int v => if v < 0 then "-" ++ natToStr v.natAbs else natToStr v.toNat

/-- Value of a decimal-digit prefix, folding left as `parseInt` does. -/
def decFold (cs : List Char) : Nat :=
  cs.foldl (fun a c => a * 10 + (c.toNat - 48)) 0

/-- Decimal value of the longest digit prefix of a character list, or `none`
when there is no leading digit (the decimal arm of `parseInt`). -/
def decValOfChars (cs : List Char) : Option Nat :=
  let ds := cs.takeWhile Char.isDigit
  if ds.isEmpty then none else some (decFold ds)

/-- Value of a single hexadecimal digit character, if it is one. -/
def hexDigitVal (c : Char) : Option Nat :=
  if '0' ≤ c ∧ c ≤ '9' then some (c.toNat - 48)
  else if 'a' ≤ c ∧ c ≤ 'f' then some (c.toNat - 87)
  else if 'A' ≤ c ∧ c ≤ 'F' then some (c.toNat - 55)
  else none

/-- Hexadecimal value of the longest hex-digit prefix of a character list, or
`none` when there is none (the `0x` arm of `parseInt`). -/
def hexValOfChars (cs : List Char) : Option Nat :=
  let ds := cs.takeWhile (fun c => (hexDigitVal c).isSome)
  if ds.isEmpty then none
  else some (ds.foldl (fun a c => a * 16 + (hexDigitVal c).getD 0) 0)

/-- Model of JavaScript `parseInt(s)` (radix argument omitted): skip leading
whitespace, read an optional sign, parse a leading `0x`/`0X` hexadecimal or
decimal digit run, and produce `NaN` when no digit is found. -/
def parseIntJS (s : String) : JSNum :=
  let cs := s.data.dropWhile Char.isWhitespace
  let sg : Int := if cs.head? = some '-' then -1 else 1
  let cs1 := if cs.head? = some '-' ∨ cs.head? = some '+' then cs.tail else cs
  let isHex := cs1.head? = some '0' ∧ (cs1.tail.head? = some 'x' ∨ cs1.tail.head? = some 'X')
  if isHex then
    match hexValOfChars (cs1.drop 2) with
    | none => JSNum.nan
    | some n => JSNum.int (sg * n)
  else
    match decValOfChars cs1 with
    | none => JSNum.nan
    | some n => JSNum.int (sg * n)

example : parseIntJS "abc" = JSNum.nan := by decide
example : parseIntJS "42" = JSNum.int 42 := by decide
example : parseIntJS "-17" = JSNum.int (-17) := by decide
example : parseIntJS "0x1A" = JSNum.int 26 := by decide
example : parseIntJS "12abc" = JSNum.int 12 := by decide
example : parseIntJS "" = JSNum.nan := by decide
example : numToString (.int (-120)) = "-120" := by decide
example : numToString (.int 0) = "0" := by decide

/-! ## URL parameters

`URLSearchParams` is modelled as an association list of key/value pairs; the
source only ever calls `set` with fresh keys, so insertion order is append
order and `get` is first-match lookup.  Percent-encoding performed by the
browser is a bijection on the wire format and is abstracted away. -/

/-- A query-string parameter list. -/
abbrev Params := List (String × String)

/-- `URLSearchParams.get`: first value stored under a key, if any. -/
def getP : Params → String → Option String
  | [], _ => none
  | (k, v) :: rest, key => if k = key then some v else getP rest key

/-- A parameter that is present exactly when its guard holds (the
`if (cond) params.set(k, v)` pattern of `updateURL`). -/
def optParam (b : Bool) (k v : String) : Params :=
  if b then [(k, v)] else []

/-- Serialization of a parameter list to a query string, abstracting the
percent-encoding of `URLSearchParams.toString`; on the empty list the two
agree exactly (both produce `""`). -/
def paramsToString (p : Params) : String :=
  String.intercalate "&" (p.map fun kv => kv.1 ++ "=" ++ kv.2)

/-- JavaScript string truthiness: the empty string is falsy. -/
def truthyS (s : String) : Bool := s != ""

/-- Truthiness of a nullable number (`null`, `0` and `NaN` are falsy). -/
def truthyO : Option JSNum → Bool
  | some n => n.truthy
  | none => false

/-- `x || d` on a nullable string: the default replaces both `null` and `""`. -/
def jsOrS (o : Option String) (d : String) : String :=
  match o with
  | some s => if s = "" then d else s
  | none => d

/-- Core of `Array.prototype.join(',')` on character lists. -/
def joinCommaCore : List (List Char) → List Char
  | [] => []
  | [x] => x
  | x :: y :: rest => x ++ ',' :: joinCommaCore (y :: rest)

/-- `Array.prototype.join(',')`. -/
def joinComma (l : List String) : String :=
  ⟨joinCommaCore (l.map String.data)⟩

/-- Core of `String.prototype.split(',')` on character lists: split at every
comma, producing one more piece than there are commas. -/
def splitCommaCore : List Char → List (List Char)
  | [] => [[]]
  | c :: rest =>
    if c = ',' then [] :: splitCommaCore rest
    else
      match splitCommaCore rest with
      | [] => [[c]]
      | p :: ps => (c :: p) :: ps

/-- `String.prototype.split(',')`. -/
def splitComma (s : String) : List String :=
  (splitCommaCore s.data).map fun cs => ⟨cs⟩

example : splitComma "a,b" = ["a", "b"] := by decide
example : splitComma "a," = ["a", ""] := by decide
example : joinComma ["a", "b"] = "a,b" := by decide

/-! ## Search state (the `SearchState` interface of `App.tsx`) -/

/-- One search box: text plus field scope (`all` / `title` / `author`). -/
structure SearchQuery where
  query : String
  field : String
deriving DecidableEq, Repr

/-- The full filter/sort/pagination state carried in the URL. -/
structure SearchState where
  queries : List SearchQuery
  library : String
  collection : List String
  subjects : List String
  authors : List String
  languages : List String
  shelfMark : String
  dateFrom : Option JSNum
  dateTo : Option JSNum
  includeUndated : Bool
  sortBy : String
  page : JSNum
  perPage : JSNum
deriving DecidableEq, Repr

/-- The state `parseURLParams` produces from an empty query string: one empty
all-fields term and every filter at its default. -/
def defaultState : SearchState :=
  { queries := [⟨"", "all"⟩], library := "", collection := [], subjects := [],
    authors := [], languages := [], shelfMark := "", dateFrom := none,
    dateTo := none, includeUndated := true, sortBy := "id",
    page := .int 1, perPage := .int 25 }

/-- The key `q1`/`q2`/`q3` for the i-th search box. -/
def qKey (i : Nat) : String := ⟨'q' :: natToChars i⟩

/-- The key `f1`/`f2`/`f3` for the i-th search box's field scope. -/
def fKey (i : Nat) : String := ⟨'f' :: natToChars i⟩

/-- The parameters `updateURL` emits for one search box at position `i`
(1-based): the text under `q<i>` when non-empty, and the scope under `f<i>`
when it is not the default `all`. -/
def encQueryOne (i : Nat) (q : SearchQuery) : Params :=
  if truthyS q.query then
    (qKey i, q.query) :: optParam (q.field != "all") (fKey i) q.field
  else []

/-- The `state.queries.forEach((q, i) => ...)` loop of `updateURL`. -/
def encQueriesFrom : Nat → List SearchQuery → Params
  | _, [] => []
  | i, q :: rest => encQueryOne (i + 1) q ++ encQueriesFrom (i + 1) rest

/-- `updateURL`: serialize a state to query-string parameters, omitting every
field that sits at its default value. -/
def updateURL (s : SearchState) : Params :=
  encQueriesFrom 0 s.queries ++
  (optParam (truthyS s.library) "library" s.library ++
  (optParam (!s.collection.isEmpty) "collection" (joinComma s.collection) ++
  (optParam (!s.subjects.isEmpty) "subjects" (joinComma s.subjects) ++
  (optParam (!s.authors.isEmpty) "authors" (joinComma s.authors) ++
  (optParam (!s.languages.isEmpty) "languages" (joinComma s.languages) ++
  (optParam (truthyS s.shelfMark) "shelf" s.shelfMark ++
  (optParam (truthyO s.dateFrom) "from" (numToString (s.dateFrom.getD .nan)) ++
  (optParam (truthyO s.dateTo) "to" (numToString (s.dateTo.getD .nan)) ++
  (optParam (!s.includeUndated) "undated" "false" ++
  (optParam (s.sortBy != "id") "sort" s.sortBy ++
  (optParam (s.page.gtB (.int 1)) "page" (numToString s.page) ++
   optParam (s.perPage.neB (.int 25)) "per" (numToString s.perPage))))))))))))

/-- One iteration of the `q1`/`f1` … `q3`/`f3` reading loop of
`parseURLParams`: a truthy `q<i>` contributes one term whose scope defaults
to `all`. -/
def decQueryAt (p : Params) (i : Nat) : List SearchQuery :=
  match getP p (qKey i) with
  | some q => if q = "" then [] else [⟨q, jsOrS (getP p (fKey i)) "all"⟩]
  | none => []

/-- The search-term part of `parseURLParams`: numbered pairs first, then the
legacy single `q`/`field` pair, then the guaranteed single empty term. -/
def decQueries (p : Params) : List SearchQuery :=
  let qs := decQueryAt p 1 ++ decQueryAt p 2 ++ decQueryAt p 3
  let qs2 :=
    if qs.isEmpty then
      match getP p "q" with
      | some q => if q = "" then [] else [⟨q, jsOrS (getP p "field") "all"⟩]
      | none => []
    else qs
  if qs2.isEmpty then [⟨"", "all"⟩] else qs2

/-- A comma-joined list parameter: split on commas when the parameter is
truthy, otherwise the empty list. -/
def decList (p : Params) (key : String) : List String :=
  match getP p key with
  | some s => if s = "" then [] else splitComma s
  | none => []

/-- A nullable integer parameter: `parseInt` of the text when truthy
(which can produce `NaN`), otherwise `null`. -/
def decDate (p : Params) (key : String) : Option JSNum :=
  match getP p key with
  | some s => if s = "" then none else some (parseIntJS s)
  | none => none

/-- A defaulted integer parameter: `parseInt` of the text when truthy
(which can produce `NaN`), otherwise the default. -/
def decNum (p : Params) (key : String) (d : Int) : JSNum :=
  match getP p key with
  | some s => if s = "" then .int d else parseIntJS s
  | none => .int d

/-- `parseURLParams`: parseURLParams a parameter list into a `SearchState`. -/
def parseURLParams (p : Params) : SearchState :=
  { queries := decQueries p
    library := jsOrS (getP p "library") ""
    collection := decList p "collection"
    subjects := decList p "subjects"
    authors := decList p "authors"
    languages := decList p "languages"
    shelfMark := jsOrS (getP p "shelf") ""
    dateFrom := decDate p "from"
    dateTo := decDate p "to"
    includeUndated := getP p "undated" != some "false"
    sortBy := jsOrS (getP p "sort") "id"
    page := decNum p "page" 1
    perPage := decNum p "per" 25 }

example : parseURLParams [] = defaultState := by decide
example : updateURL defaultState = [] := by decide
example :
    parseURLParams (updateURL { defaultState with
      queries := [⟨"kitab", "title"⟩], collection := ["A", "B"],
      dateFrom := some (.int 1200), includeUndated := false,
      sortBy := "date_desc", page := .int 3, perPage := .int 50 }) =
    { defaultState with
      queries := [⟨"kitab", "title"⟩], collection := ["A", "B"],
      dateFrom := some (.int 1200), includeUndated := false,
      sortBy := "date_desc", page := .int 3, perPage := .int 50 } := by decide

/-! ## OpenSearch query documents -/

/-- A clause of the OpenSearch query DSL as this program emits it.  The
`wildcard` constructor covers both JSON spellings of a wildcard query
(`{wildcard: {f: p}}` and `{wildcard: {f: {value: p}}}`), which denote the
same query.  `queryString` always carries `default_operator: "AND"` in the
source, so the operator is left implicit. -/
inductive QueryClause where
  | wildcard (fld pattern : String)
  | queryString (flds : List String) (q : String)
  | termQ (fld val : String)
  | termsQ (fld : String) (vals : List String)
  | rangeQ (fld : String) (gte lte : Option JSNum)
  | existsQ (fld : String)
  | boolShould (clauses : List QueryClause) (minShouldMatch : Option Nat)
  | boolMustNot (c : QueryClause)

/-- One entry of the `sort` array: field, direction, and the optional
`missing` placement (`_first` / `_last`). -/
structure SortSpec where
  field : String
  order : String
  missing : Option String
deriving DecidableEq, Repr

/-- One `terms` aggregation request (always ordered by descending count in
the source, so the order is left implicit). -/
structure TermsAgg where
  field : String
  size : Nat
deriving DecidableEq, Repr

/-- The four facet aggregations requested by `buildQuery`. -/
structure AggsSpec where
  collections : TermsAgg
  subjects : TermsAgg
  authors : TermsAgg
  languages : TermsAgg
deriving DecidableEq, Repr

/-- The top-level `query` object: a bool query (empty `must`/`filter` lists
model the omitted keys) or `match_all`. -/
inductive TopQuery where
  | boolQ (must : List QueryClause) (filter : List QueryClause)
  | matchAll

/-- The `must` list of a top-level query (empty for `match_all`). -/
def TopQuery.mustOf : TopQuery → List QueryClause
  | .boolQ m _ => m
  | .matchAll => []

/-- The `filter` list of a top-level query (empty for `match_all`). -/
def TopQuery.filterOf : TopQuery → List QueryClause
  | .boolQ _ f => f
  | .matchAll => []

/-- The whole request body built by `buildQuery`. -/
structure QueryBody where
  fromQ : JSNum
  size : JSNum
  trackTotalHits : Bool
  sort : List SortSpec
  query : TopQuery
  aggs : Option AggsSpec

/-- `buildShelfMarkQuery`: `null` on empty input; a verbatim wildcard pattern
when the user already typed `*`/`?`; otherwise wrapped as `*text*`. -/
def buildShelfMarkQuery (input : String) : Option QueryClause :=
  if input = "" then none
  else if input.data.contains '*' || input.data.contains '?' then
    some (.wildcard "shelf_mark" input)
  else some (.wildcard "shelf_mark" ("*" ++ input ++ "*"))

/-- `getSortQuery`: the fixed sort-key lookup table. -/
def getSortQuery (sortBy : String) : List SortSpec :=
  if sortBy = "date_asc" then [⟨"date_year", "asc", some "_last"⟩]
  else if sortBy = "date_desc" then [⟨"date_year", "desc", some "_last"⟩]
  else if sortBy = "title_tr_asc" then [⟨"title_turkish.keyword", "asc", some "_last"⟩]
  else if sortBy = "title_tr_desc" then [⟨"title_turkish.keyword", "desc", some "_first"⟩]
  else if sortBy = "title_ar_asc" then [⟨"title_arabic.keyword", "asc", some "_last"⟩]
  else if sortBy = "title_ar_desc" then [⟨"title_arabic.keyword", "desc", some "_first"⟩]
  else if sortBy = "author_tr_asc" then [⟨"author.keyword", "asc", some "_last"⟩]
  else if sortBy = "author_tr_desc" then [⟨"author.keyword", "desc", some "_first"⟩]
  else if sortBy = "author_ar_asc" then [⟨"author_ar.keyword", "asc", some "_last"⟩]
  else if sortBy = "author_ar_desc" then [⟨"author_ar.keyword", "desc", some "_first"⟩]
  else [⟨"bib_number", "asc", none⟩]

/-- Model of `String.prototype.toLowerCase` (simple per-character lowering,
which is all the patterns in scope exercise). -/
def toLowerJS (s : String) : String := s.toLower

/-- True when the term text contains a user-authored `*` or `?` wildcard
(`String.prototype.includes` on the two single-character needles). -/
def containsWildcard (q : String) : Bool := q.data.contains '*' || q.data.contains '?'

/-- The ten-field list used by the full-text branch of an `all`-scope term. -/
def allFields : List String :=
  ["title_turkish", "title_arabic", "author", "author_ar",
   "library", "collection", "physical_description",
   "shelf_mark", "previous_shelfmark", "alternative_titles", "bib_number.text"]

/-- One iteration of the `queries.forEach` loop of `buildQuery`: the clause
pushed onto `must` for one search box, or `none` for an empty text. -/
def termClause (sq : SearchQuery) : Option QueryClause :=
  if sq.query = "" then none
  else
    let q := sq.query
    let lq := toLowerJS q
    if sq.field = "all" then
      if containsWildcard q then
        some (.boolShould
          [.wildcard "title_turkish.keyword" lq,
           .wildcard "title_arabic.keyword" lq,
           .wildcard "alternative_titles.keyword" lq,
           .wildcard "author.keyword" lq,
           .wildcard "author_ar.keyword" lq,
           .wildcard "library" lq,
           .wildcard "collection" lq,
           .wildcard "physical_description" lq,
           .wildcard "shelf_mark" lq,
           .wildcard "previous_shelfmark" lq,
           .queryString allFields q] (some 1))
      else some (.queryString allFields q)
    else
      let fields :=
        if sq.field = "title" then ["title_turkish", "title_arabic", "alternative_titles"]
        else if sq.field = "author" then ["author", "author_ar"]
        else [sq.field]
      if containsWildcard q then
        let wilds :=
          if sq.field = "title" then
            [QueryClause.wildcard "title_turkish.keyword" lq,
             .wildcard "title_arabic.keyword" lq,
             .wildcard "alternative_titles.keyword" lq]
          else if sq.field = "author" then
            [QueryClause.wildcard "author.keyword" lq, .wildcard "author_ar.keyword" lq]
          else [QueryClause.wildcard sq.field lq]
        some (.boolShould (wilds ++ [.queryString fields q]) (some 1))
      else some (.queryString fields q)

/-- One `if (cond) filter.push(clause)` step of `buildQuery`. -/
def optFilter (b : Bool) (c : QueryClause) : List QueryClause :=
  if b then [c] else []

/-- `buildQuery(size?, from?, includeAggs)`: the pure map from committed
state to one request body. -/
def buildQuery (st : SearchState) (size fromP : Option JSNum)
    (includeAggs : Bool) : QueryBody :=
  let must0 := st.queries.filterMap termClause
  let must :=
    must0 ++
      (if truthyS st.shelfMark then (buildShelfMarkQuery st.shelfMark).toList else [])
  let filter0 :=
    optFilter (truthyS st.library) (.termQ "library" st.library) ++
    optFilter (!st.collection.isEmpty) (.termsQ "collection" st.collection) ++
    optFilter (!st.subjects.isEmpty) (.termsQ "subject.keyword" st.subjects) ++
    optFilter (!st.authors.isEmpty) (.termsQ "author.keyword" st.authors) ++
    optFilter (!st.languages.isEmpty) (.termsQ "languages" st.languages)
  let filter :=
    filter0 ++
      (if truthyO st.dateFrom || truthyO st.dateTo then
        let dq := QueryClause.rangeQ "date_year"
          (if truthyO st.dateFrom then st.dateFrom else none)
          (if truthyO st.dateTo then st.dateTo else none)
        if st.includeUndated then
          [.boolShould [dq, .boolMustNot (.existsQ "date_year")] none]
        else [dq]
      else if !st.includeUndated then [.existsQ "date_year"] else [])
  { fromQ := fromP.getD ((st.page.sub (.int 1)).mul st.perPage)
    size := size.getD st.perPage
    trackTotalHits := true
    sort := getSortQuery st.sortBy
    query :=
      if must.isEmpty && filter.isEmpty then .matchAll
      else .boolQ must filter
    aggs :=
      if includeAggs && (!must.isEmpty || !filter.isEmpty) then
        some ⟨⟨"collection", 300⟩, ⟨"subject.keyword", 300⟩,
              ⟨"author.raw", 300⟩, ⟨"languages", 100⟩⟩
      else none }

/-! ## Result records and the search / export executors -/

/-- A manuscript record (`interface Manuscript` plus the `language` property
the CSV export reads off the untyped `hit._source`).  `ys_id` is the only
non-optional field. -/
structure Manuscript where
  ys_id : Int
  bib_number : Option Int
  title_turkish : Option String
  title_arabic : Option String
  auto_title : Option Int
  author : Option String
  author_ar : Option String
  auto_name : Option Int
  classification_no : Option String
  subject : Option String
  classification_yazscrape : Option String
  library : Option String
  collection : Option String
  date_full : Option String
  date_year : Option Int
  url : Option String
  language : Option String
  languages : Option (List String)
  physical_description : Option String
  shelf_mark : Option String
  previous_shelfmark : Option String
  type_of_material : Option String
deriving DecidableEq, Repr

/-- The client-side outcome of `performSearch` up to the network call:
either the request is refused with an error message and the displayed rows
replaced (by `[]`), or a request body is dispatched. -/
inductive SearchAction where
  | refused (errorMsg : String) (newResults : List Manuscript)
  | dispatch (body : QueryBody)

/-- The fixed beyond-limit error message of `performSearch`. -/
def limitErrorMsg : String :=
  "Cannot access results beyond 10,000. Please refine your search criteria."

/-- `performSearch` up to the `fetch`: build the query, refuse with the
limit error (clearing the rows) when the requested offset reaches 10,000,
otherwise clamp `size` so that `offset + size` stays within 10,000 and
dispatch. -/
def performSearch (st : SearchState) : SearchAction :=
  let searchQuery := buildQuery st none none true
  let requestedOffset := (st.page.sub (.int 1)).mul st.perPage
  if requestedOffset.geB (.int 10000) then
    .refused limitErrorMsg []
  else
    let maxSize := st.perPage.minJ ((JSNum.int 10000).sub requestedOffset)
    .dispatch { searchQuery with size := maxSize }

/-- The client-side outcome of `downloadResults` up to the network call:
either the confirmation dialog is raised and no request made, or the export
request body is issued. -/
inductive DownloadAction where
  | askConfirm
  | request (body : QueryBody)

/-- `downloadResults` up to the `fetch`: require confirmation when more than
2000 results are known, otherwise request `min(totalResults, 2000)` rows
from offset 0 without aggregations. -/
def downloadResults (st : SearchState) (totalResults : Int)
    (showDownloadConfirm : Bool) : DownloadAction :=
  if totalResults > 2000 && !showDownloadConfirm then .askConfirm
  else .request (buildQuery st (some (.int (min totalResults 2000))) (some (.int 0)) false)

/-! ## CSV export serialization -/

/-- `x || ''` on a JavaScript number followed by `String(...)`: both a
missing field and the (falsy) value `0` print as the empty string. -/
def csvCellNum (v : Option Int) : String :=
  match v with
  | none => ""
  | some n => if n = 0 then "" else numToString (.int n)

/-- `x || ''` on a nullable string (the empty string is already falsy). -/
def csvCellStr (v : Option String) : String := v.getD ""

/-- `Array.isArray(x) ? x.join(', ') : ''` for the languages column. -/
def csvCellLangs (v : Option (List String)) : String :=
  match v with
  | some l => String.intercalate ", " l
  | none => ""

/-- The 22 header names of the exported CSV, in order. -/
def csvHeaders : List String :=
  ["ys_id", "bib_number", "title_turkish", "title_arabic", "auto_title",
   "author", "author_ar", "auto_name", "classification_no", "subject",
   "classification_yazscrape", "library", "collection", "date_full",
   "date_year", "url", "language", "languages", "physical_description",
   "shelf_mark", "previous_shelfmark", "type_of_material"]

/-- The raw cell values of one CSV row, before quote-wrapping. -/
def csvRow (r : Manuscript) : List String :=
  [csvCellNum (some r.ys_id),
   csvCellNum r.bib_number,
   csvCellStr r.title_turkish,
   csvCellStr r.title_arabic,
   csvCellNum r.auto_title,
   csvCellStr r.author,
   csvCellStr r.author_ar,
   csvCellNum r.auto_name,
   csvCellStr r.classification_no,
   csvCellStr r.subject,
   csvCellStr r.classification_yazscrape,
   csvCellStr r.library,
   csvCellStr r.collection,
   csvCellStr r.date_full,
   csvCellNum r.date_year,
   csvCellStr r.url,
   csvCellStr r.language,
   csvCellLangs r.languages,
   csvCellStr r.physical_description,
   csvCellStr r.shelf_mark,
   csvCellStr r.previous_shelfmark,
   csvCellStr r.type_of_material]

/-! ## Application filter state and `clearFilters` -/

/-- One copy (pending or active) of the filter fields. -/
structure FilterCopy where
  library : String
  collection : List String
  subjects : List String
  authors : List String
  languages : List String
  shelfMark : String
  dateFrom : Option JSNum
  dateTo : Option JSNum
  includeUndated : Bool
deriving DecidableEq, Repr

/-- The default (all-cleared) filter copy. -/
def defaultFilterCopy : FilterCopy :=
  { library := "", collection := [], subjects := [], authors := [],
    languages := [], shelfMark := "", dateFrom := none, dateTo := none,
    includeUndated := true }

/-- One (value, count) aggregation bucket. -/
structure Bucket where
  value : String
  count : Int
deriving DecidableEq, Repr

/-- The application state touched by `clearFilters`: the pending and active
filter copies, the page, the has-searched flag and the four
aggregation-derived facet sources, plus the pieces `clearFilters` leaves
alone (queries, sort, page size). -/
structure AppState where
  pending : FilterCopy
  active : FilterCopy
  page : JSNum
  hasSearched : Bool
  aggregatedCollections : Option (List Bucket)
  aggregatedSubjects : Option (List Bucket)
  aggregatedAuthors : Option (List Bucket)
  aggregatedLanguages : Option (List Bucket)
  queries : List SearchQuery
  sortBy : String
  perPage : JSNum
deriving DecidableEq, Repr

/-- `clearFilters`: reset both filter copies and the page, drop all
aggregation state and mark that no search has occurred. -/
def clearFilters (s : AppState) : AppState :=
  { s with
    pending := defaultFilterCopy
    active := defaultFilterCopy
    page := .int 1
    hasSearched := false
    aggregatedCollections := none
    aggregatedSubjects := none
    aggregatedAuthors := none
    aggregatedLanguages := none }

/-- The `sourceFile` prop handed to the collection dropdown:
`!hasSearched ? "collections.txt" : undefined`. -/
def collectionSourceFile (s : AppState) : Option String :=
  if s.hasSearched then none else some "collections.txt"

/-- The `sourceFile` prop handed to the language dropdown. -/
def languageSourceFile (s : AppState) : Option String :=
  if s.hasSearched then none else some "languages.txt"

/-- The `sourceFile` prop handed to the subject dropdown. -/
def subjectSourceFile (s : AppState) : Option String :=
  if s.hasSearched then none else some "subjects.txt"

/-! ## Spec-side characterizations -/

/-- The field list of the full-text branch for a given scope, as the spec
describes it: ten fields for `all`, three title fields, two author fields,
any other scope name used literally. -/
def scopeFields (field : String) : List String :=
  if field = "all" then allFields
  else if field = "title" then ["title_turkish", "title_arabic", "alternative_titles"]
  else if field = "author" then ["author", "author_ar"]
  else [field]

/-- The wildcard branches a wildcard term contributes for a given scope. -/
def wildcardBranches (sq : SearchQuery) : List QueryClause :=
  let lq := toLowerJS sq.query
  if sq.field = "all" then
    [.wildcard "title_turkish.keyword" lq,
     .wildcard "title_arabic.keyword" lq,
     .wildcard "alternative_titles.keyword" lq,
     .wildcard "author.keyword" lq,
     .wildcard "author_ar.keyword" lq,
     .wildcard "library" lq,
     .wildcard "collection" lq,
     .wildcard "physical_description" lq,
     .wildcard "shelf_mark" lq,
     .wildcard "previous_shelfmark" lq]
  else if sq.field = "title" then
    [.wildcard "title_turkish.keyword" lq,
     .wildcard "title_arabic.keyword" lq,
     .wildcard "alternative_titles.keyword" lq]
  else if sq.field = "author" then
    [.wildcard "author.keyword" lq, .wildcard "author_ar.keyword" lq]
  else [.wildcard sq.field lq]

/-- True exactly for a wildcard clause whose pattern is `p`. -/
def isWildcardOn (p : String) : QueryClause → Bool
  | .wildcard _ pat => pat == p
  | _ => false

/-- The non-date filter clauses of `buildQuery` (library, collection,
subject, author, language), in push order. -/
def nonDateFilters (st : SearchState) : List QueryClause :=
  optFilter (truthyS st.library) (.termQ "library" st.library) ++
  optFilter (!st.collection.isEmpty) (.termsQ "collection" st.collection) ++
  optFilter (!st.subjects.isEmpty) (.termsQ "subject.keyword" st.subjects) ++
  optFilter (!st.authors.isEmpty) (.termsQ "author.keyword" st.authors) ++
  optFilter (!st.languages.isEmpty) (.termsQ "languages" st.languages)

/-- The date-filter clause list as the (amended) spec describes it: a bound
counts as given exactly when it is truthy (non-null, non-zero, non-`NaN`);
a given bound contributes an inclusive `gte`/`lte`; with undated included
the range is OR-ed with field-absent, with no bound given the flag alone
decides between no clause and a field-present requirement. -/
def dateFilterSpec (df dt : Option JSNum) (iu : Bool) : List QueryClause :=
  if truthyO df || truthyO dt then
    let rq := QueryClause.rangeQ "date_year"
      (if truthyO df then df else none) (if truthyO dt then dt else none)
    if iu then [.boolShould [rq, .boolMustNot (.existsQ "date_year")] none]
    else [rq]
  else if iu then [] else [.existsQ "date_year"]

/-! ## Claim C9: shelf-mark pattern construction -/

/-- Claim C9: a non-empty shelf-mark input containing `*` or `?` is used
verbatim as the wildcard pattern; otherwise it is wrapped as `*text*`;
empty input contributes no clause. -/
theorem shelfMark_pattern_spec (input : String) (h : input ≠ "") :
    (containsWildcard input = true →
      buildShelfMarkQuery input = some (.wildcard "shelf_mark" input)) ∧
    (containsWildcard input = false →
      buildShelfMarkQuery input = some (.wildcard "shelf_mark" ("*" ++ input ++ "*"))) ∧
    buildShelfMarkQuery "" = none := by
  refine ⟨fun hw => ?_, fun hw => ?_, rfl⟩
  · have hm : '*' ∈ input.data ∨ '?' ∈ input.data := by
      simpa [containsWildcard] using hw
    simp [buildShelfMarkQuery, h]
    intro h1 h2
    exact absurd hm (by simp [h1, h2])
  · have hm : '*' ∉ input.data ∧ '?' ∉ input.data := by
      simpa [containsWildcard] using hw
    simp [buildShelfMarkQuery, h, hm.1, hm.2]

/-- Witness for C9 at the spec's own examples `"330"` and `"330*"`. -/
theorem shelfMark_pattern_witness :
    buildShelfMarkQuery "330" = some (.wildcard "shelf_mark" "*330*") ∧
    buildShelfMarkQuery "330*" = some (.wildcard "shelf_mark" "330*") :=
  ⟨(shelfMark_pattern_spec "330" (by decide)).2.1 (by decide),
   (shelfMark_pattern_spec "330*" (by decide)).1 (by decide)⟩

/-! ## Claim C2: the sort lookup table -/

/-- Claim C2 counterexample: the claim says every descending key places
missing values first, but `date_desc` places them `_last`. -/
theorem getSortQuery_date_desc_counterexample :
    getSortQuery "date_desc" = [⟨"date_year", "desc", some "_last"⟩] ∧
    (some "_last" : Option String) ≠ some "_first" := by
  exact ⟨by decide, by decide⟩

/-- Claim C2 (amended): the full sort table — exactly one ordering field per
key; missing values sort last for every ascending key and first for every
descending key except `date_desc`, which also places them last; the
id/default key maps to ascending `bib_number` with no missing-value
placement. -/
theorem getSortQuery_table :
    getSortQuery "id" = [⟨"bib_number", "asc", none⟩] ∧
    getSortQuery "date_asc" = [⟨"date_year", "asc", some "_last"⟩] ∧
    getSortQuery "date_desc" = [⟨"date_year", "desc", some "_last"⟩] ∧
    getSortQuery "title_tr_asc" = [⟨"title_turkish.keyword", "asc", some "_last"⟩] ∧
    getSortQuery "title_tr_desc" = [⟨"title_turkish.keyword", "desc", some "_first"⟩] ∧
    getSortQuery "title_ar_asc" = [⟨"title_arabic.keyword", "asc", some "_last"⟩] ∧
    getSortQuery "title_ar_desc" = [⟨"title_arabic.keyword", "desc", some "_first"⟩] ∧
    getSortQuery "author_tr_asc" = [⟨"author.keyword", "asc", some "_last"⟩] ∧
    getSortQuery "author_tr_desc" = [⟨"author.keyword", "desc", some "_first"⟩] ∧
    getSortQuery "author_ar_asc" = [⟨"author_ar.keyword", "asc", some "_last"⟩] ∧
    getSortQuery "author_ar_desc" = [⟨"author_ar.keyword", "desc", some "_first"⟩] := by
  decide

/-! ## Claim C10: falsy numeric CSV cells -/

/-- Claim C10: the CSV export emits the empty string not only for absent
fields but for any numeric field whose value is the falsy `0`, even though
the field is present in the record. -/
theorem csvRow_zero_is_empty (r : Manuscript) :
    (r.ys_id = 0 → (csvRow r)[0]? = some "") ∧
    (r.bib_number = some 0 → (csvRow r)[1]? = some "") ∧
    (r.auto_title = some 0 → (csvRow r)[4]? = some "") ∧
    (r.auto_name = some 0 → (csvRow r)[7]? = some "") ∧
    (r.date_year = some 0 → (csvRow r)[14]? = some "") := by
  refine ⟨fun h => ?_, fun h => ?_, fun h => ?_, fun h => ?_, fun h => ?_⟩ <;>
    simp [csvRow, csvCellNum, h]

/-- Witness for C10: a record whose numeric fields are all present with
value `0` exports empty strings in all five numeric columns. -/
theorem csvRow_zero_is_empty_witness :
    (csvRow { ys_id := 0, bib_number := some 0, title_turkish := none,
              title_arabic := none, auto_title := some 0, author := none,
              author_ar := none, auto_name := some 0, classification_no := none,
              subject := none, classification_yazscrape := none, library := none,
              collection := none, date_full := none, date_year := some 0,
              url := none, language := none, languages := none,
              physical_description := none, shelf_mark := none,
              previous_shelfmark := none, type_of_material := none })[14]? =
      some "" :=
  (csvRow_zero_is_empty _).2.2.2.2 rfl

/-! ## Claim C8: clearing filters -/

/-- Claim C8: `clearFilters` resets both the pending and the active filter
copy to the defaults, resets the page to 1, discards all aggregation state
and reverts every facet source to its static list, whatever the prior
state. -/
theorem clearFilters_spec (s : AppState) :
    (clearFilters s).pending = defaultFilterCopy ∧
    (clearFilters s).active = defaultFilterCopy ∧
    (clearFilters s).page = .int 1 ∧
    (clearFilters s).hasSearched = false ∧
    (clearFilters s).aggregatedCollections = none ∧
    (clearFilters s).aggregatedSubjects = none ∧
    (clearFilters s).aggregatedAuthors = none ∧
    (clearFilters s).aggregatedLanguages = none ∧
    collectionSourceFile (clearFilters s) = some "collections.txt" ∧
    languageSourceFile (clearFilters s) = some "languages.txt" ∧
    subjectSourceFile (clearFilters s) = some "subjects.txt" := by
  simp [clearFilters, collectionSourceFile, languageSourceFile, subjectSourceFile]

/-! ## Claim C7: export confirmation and window -/

/-- Claim C7: when the known total exceeds 2000 and the user has not
confirmed, no export request is issued; otherwise the export request carries
`size = min(totalResults, 2000)`, offset 0 and no aggregations. -/
theorem downloadResults_spec (st : SearchState) (tot : Int) (conf : Bool) :
    (tot > 2000 → conf = false → downloadResults st tot conf = .askConfirm) ∧
    (tot ≤ 2000 ∨ conf = true →
      downloadResults st tot conf =
        .request (buildQuery st (some (.int (min tot 2000))) (some (.int 0)) false) ∧
      (buildQuery st (some (.int (min tot 2000))) (some (.int 0)) false).size =
        .int (min tot 2000) ∧
      (buildQuery st (some (.int (min tot 2000))) (some (.int 0)) false).fromQ =
        .int 0 ∧
      (buildQuery st (some (.int (min tot 2000))) (some (.int 0)) false).aggs =
        none) := by
  constructor
  · intro h1 h2
    simp [downloadResults, h1, h2]
  · intro h
    have hcond : (tot > 2000 && !conf) = false := by
      rcases h with h | h
      · simp [show ¬(tot > 2000) by omega]
      · simp [h]
    refine ⟨by simp [downloadResults, hcond], ?_, ?_, ?_⟩ <;> simp [buildQuery]

/-- Witness for C7 at `totalResults = 5000`: unconfirmed export is stopped;
the confirmed export requests exactly 2000 rows at offset 0 without
aggregations. -/
theorem downloadResults_witness :
    downloadResults defaultState 5000 false = .askConfirm ∧
    downloadResults defaultState 5000 true =
      .request (buildQuery defaultState (some (.int (min 5000 2000)))
        (some (.int 0)) false) ∧
    (buildQuery defaultState (some (.int (min 5000 2000))) (some (.int 0))
        false).size = .int (min 5000 2000) ∧
    (buildQuery defaultState (some (.int (min 5000 2000))) (some (.int 0))
        false).fromQ = .int 0 ∧
    (buildQuery defaultState (some (.int (min 5000 2000))) (some (.int 0))
        false).aggs = none :=
  ⟨(downloadResults_spec defaultState 5000 false).1 (by decide) rfl,
   (downloadResults_spec defaultState 5000 true).2 (Or.inr rfl)⟩

/-! ## Claim C5: pagination clamp and the 10,000 window -/

/-- Claim C5: with offset `(page-1)×pageSize` at or beyond 10,000 the search
is refused before any network call with the fixed limit message and the rows
cleared; below the limit the dispatched body uses that offset and a size
clamped so that `offset + size` never exceeds 10,000. -/
theorem performSearch_spec (st : SearchState) (p pp : Int)
    (hp : st.page = .int p) (hpp : st.perPage = .int pp) :
    ((p - 1) * pp ≥ 10000 → performSearch st = .refused limitErrorMsg []) ∧
    ((p - 1) * pp < 10000 →
      performSearch st =
        .dispatch { buildQuery st none none true with
          size := .int (min pp (10000 - (p - 1) * pp)) } ∧
      (buildQuery st none none true).fromQ = .int ((p - 1) * pp) ∧
      (p - 1) * pp + min pp (10000 - (p - 1) * pp) ≤ 10000) := by
  constructor
  · intro h
    simp [performSearch, hp, hpp, JSNum.sub, JSNum.mul, JSNum.geB, h]
  · intro h
    refine ⟨?_, ?_, by omega⟩
    · simp [performSearch, hp, hpp, JSNum.sub, JSNum.mul, JSNum.geB, JSNum.minJ,
        show ¬((p - 1) * pp ≥ 10000) by omega]
    · simp [buildQuery, hp, hpp, JSNum.sub, JSNum.mul]

/-- Witness for C5 at the spec's example: page 401 at page size 25 (offset
10,000) is refused with the limit message and cleared rows. -/
theorem performSearch_witness :
    performSearch { defaultState with page := .int 401, perPage := .int 25 } =
      .refused limitErrorMsg [] :=
  (performSearch_spec _ 401 25 rfl rfl).1 (by decide)

/-! ## Claim C6: wildcard vs plain term clauses, combined as must-all -/

/-- Claim C6: a non-empty term containing `*`/`?` produces a disjunction
(minimum one branch) of non-empty wildcard branches — all matching the
lower-cased text — plus the full-text multi-field branch; a term without
wildcards produces only the full-text branch; and every term's clause lands
in the `must` (logical AND) list of the combined query. -/
theorem termClause_spec (sq : SearchQuery) (h : sq.query ≠ "") :
    (containsWildcard sq.query = true →
      termClause sq = some (.boolShould
        (wildcardBranches sq ++ [.queryString (scopeFields sq.field) sq.query])
        (some 1)) ∧
      wildcardBranches sq ≠ [] ∧
      (wildcardBranches sq).all (isWildcardOn (toLowerJS sq.query)) = true) ∧
    (containsWildcard sq.query = false →
      termClause sq = some (.queryString (scopeFields sq.field) sq.query)) ∧
    (∀ st : SearchState, sq ∈ st.queries → ∀ c, termClause sq = some c →
      c ∈ ((buildQuery st none none true).query).mustOf) := by
  refine ⟨fun hw => ?_, fun hw => ?_, fun st hmem c hc => ?_⟩
  · by_cases ha : sq.field = "all"
    · refine ⟨?_, ?_, ?_⟩ <;>
        simp [termClause, wildcardBranches, scopeFields, isWildcardOn, h, hw, ha]
    · by_cases ht : sq.field = "title"
      · refine ⟨?_, ?_, ?_⟩ <;>
          simp [termClause, wildcardBranches, scopeFields, isWildcardOn, h, hw, ha, ht]
      · by_cases hau : sq.field = "author"
        · refine ⟨?_, ?_, ?_⟩ <;>
            simp [termClause, wildcardBranches, scopeFields, isWildcardOn, h, hw, ha, ht, hau]
        · refine ⟨?_, ?_, ?_⟩ <;>
            simp [termClause, wildcardBranches, scopeFields, isWildcardOn, h, hw, ha, ht, hau]
  · by_cases ha : sq.field = "all"
    · simp [termClause, scopeFields, h, hw, ha]
    · by_cases ht : sq.field = "title"
      · simp [termClause, scopeFields, h, hw, ha, ht]
      · by_cases hau : sq.field = "author"
        · simp [termClause, scopeFields, h, hw, ha, ht, hau]
        · simp [termClause, scopeFields, h, hw, ha, ht, hau]
  · have hc0 : c ∈ st.queries.filterMap termClause :=
      List.mem_filterMap.mpr ⟨sq, hmem, hc⟩
    have hcm : c ∈ st.queries.filterMap termClause ++
        (if truthyS st.shelfMark then (buildShelfMarkQuery st.shelfMark).toList else []) :=
      List.mem_append_left _ hc0
    have hne : ¬(st.queries.filterMap termClause ++
        (if truthyS st.shelfMark then (buildShelfMarkQuery st.shelfMark).toList else [])).isEmpty := by
      rcases List.ne_nil_of_mem hcm with hne
      simpa [List.isEmpty_iff] using hne
    simp only [buildQuery]
    rw [if_neg (by simp [hne])]
    exact hcm

/-- Witness for C6 at the spec's examples: `"kit?b"` (all-fields) yields the
wildcard disjunction, `"kitab"` yields only the full-text clause. -/
theorem termClause_witness :
    termClause ⟨"kit?b", "all"⟩ = some (.boolShould
      (wildcardBranches ⟨"kit?b", "all"⟩ ++
        [.queryString (scopeFields "all") "kit?b"]) (some 1)) ∧
    wildcardBranches ⟨"kit?b", "all"⟩ ≠ [] ∧
    (wildcardBranches ⟨"kit?b", "all"⟩).all (isWildcardOn (toLowerJS "kit?b")) = true ∧
    termClause ⟨"kitab", "all"⟩ = some (.queryString (scopeFields "all") "kitab") :=
  ⟨((termClause_spec ⟨"kit?b", "all"⟩ (by decide)).1 (by decide)).1,
   ((termClause_spec ⟨"kit?b", "all"⟩ (by decide)).1 (by decide)).2.1,
   ((termClause_spec ⟨"kit?b", "all"⟩ (by decide)).1 (by decide)).2.2,
   (termClause_spec ⟨"kitab", "all"⟩ (by decide)).2.1 (by decide)⟩

/-! ## Claim C4: the date filter -/

/-- The committed state with a lower date bound of `0`, no upper bound, and
undated records excluded. -/
def zeroFromState : SearchState :=
  { defaultState with dateFrom := some (.int 0), includeUndated := false }

/-- Claim C4 counterexample: `dateFrom = 0` is a given (non-null) bound, yet
with `includeUndated = false` and no upper bound the query carries a
field-present clause instead of the range clause the claim requires — the
source tests the bounds for truthiness, so the bound `0` counts as absent. -/
theorem dateFilter_zero_bound_counterexample :
    zeroFromState.dateFrom = some (.int 0) ∧
    (buildQuery zeroFromState none none true).query =
      .boolQ [] [.existsQ "date_year"] :=
  ⟨rfl, rfl⟩

/-- Claim C4 (amended): the filter list of every built query decomposes into
the non-date filters followed by the date clauses of `dateFilterSpec`, where
a bound counts as given exactly when truthy (non-null, non-zero, non-`NaN`):
a given bound yields an inclusive range clause, OR-ed with field-absent when
undated records are included; with no given bound the flag alone decides
between a field-present requirement and no date clause at all. -/
theorem buildQuery_dateFilter (st : SearchState) (size fromP : Option JSNum)
    (ia : Bool) :
    ((buildQuery st size fromP ia).query).filterOf =
      nonDateFilters st ++
        dateFilterSpec st.dateFrom st.dateTo st.includeUndated := by
  have filterOf_build : ∀ must filter : List QueryClause,
      (if must.isEmpty && filter.isEmpty then TopQuery.matchAll
        else TopQuery.boolQ must filter).filterOf = filter := by
    intro must filter
    split_ifs with hmf
    · have h2 : filter = [] :=
        List.isEmpty_iff.mp (Bool.and_eq_true_iff.mp hmf).2
      simp [TopQuery.filterOf, h2]
    · rfl
  simp only [buildQuery]
  rw [filterOf_build]
  simp only [nonDateFilters, List.append_assoc]
  congr 1
  congr 1
  congr 1
  congr 1
  congr 1
  by_cases h1 : (truthyO st.dateFrom || truthyO st.dateTo) = true
  · simp [dateFilterSpec, h1]
  · cases hu : st.includeUndated <;>
      simp [dateFilterSpec, h1, hu]

/-! ## Decimal printing round-trips through `parseInt` -/

theorem natToCharsAux_ne_nil (fuel n : Nat) (h : n < fuel) :
    natToCharsAux fuel n ≠ [] := by
  cases fuel with
  | zero => omega
  | succ fuel =>
    simp only [natToCharsAux]
    split_ifs <;> simp

theorem natToCharsAux_digits (fuel : Nat) :
    ∀ n, n < fuel → ∀ c ∈ natToCharsAux fuel n, c.isDigit = true := by
  induction fuel with
  | zero => omega
  | succ fuel ih =>
    intro n hn c hc
    simp only [natToCharsAux] at hc
    split_ifs at hc with h10
    · have : c = Nat.digitChar n := by simpa using hc
      subst this
      have : ∀ m, m < 10 → (Nat.digitChar m).isDigit = true := by decide
      exact this n h10
    · rcases List.mem_append.mp hc with hc | hc
      · exact ih (n / 10) (by omega) c hc
      · have : c = Nat.digitChar (n % 10) := by simpa using hc
        subst this
        have : ∀ m, m < 10 → (Nat.digitChar m).isDigit = true := by decide
        exact this (n % 10) (Nat.mod_lt n (by omega))

theorem decFold_natToCharsAux (fuel : Nat) :
    ∀ n, n < fuel → decFold (natToCharsAux fuel n) = n := by
  induction fuel with
  | zero => omega
  | succ fuel ih =>
    intro n hn
    simp only [natToCharsAux]
    split_ifs with h10
    · have hd : ∀ m, m < 10 → (Nat.digitChar m).toNat = 48 + m := by decide
      simp [decFold, hd n h10]
    · have hrec := ih (n / 10) (by omega)
      have hd : (Nat.digitChar (n % 10)).toNat = 48 + n % 10 := by
        have : ∀ m, m < 10 → (Nat.digitChar m).toNat = 48 + m := by decide
        exact this _ (Nat.mod_lt n (by omega))
      simp only [decFold, List.foldl_append, List.foldl_cons, List.foldl_nil] at hrec ⊢
      rw [hrec, hd]
      omega

theorem natToChars_ne_nil (n : Nat) : natToChars n ≠ [] :=
  natToCharsAux_ne_nil _ _ (by omega)

theorem natToChars_digits (n : Nat) : ∀ c ∈ natToChars n, c.isDigit = true :=
  natToCharsAux_digits _ _ (by omega)

theorem decFold_natToChars (n : Nat) : decFold (natToChars n) = n :=
  decFold_natToCharsAux _ _ (by omega)

theorem isDigit_not_whitespace {c : Char} (h : c.isDigit = true) :
    c.isWhitespace = false := by
  by_cases h1 : c = ' '
  · subst h1; exact absurd h (by decide)
  by_cases h2 : c = '\t'
  · subst h2; exact absurd h (by decide)
  by_cases h3 : c = '\r'
  · subst h3; exact absurd h (by decide)
  by_cases h4 : c = '\n'
  · subst h4; exact absurd h (by decide)
  simp [Char.isWhitespace, h1, h2, h3, h4]

theorem isDigit_ne {c d : Char} (h : c.isDigit = true) (hd : d.isDigit = false) :
    c ≠ d := by
  intro he
  subst he
  rw [h] at hd
  exact absurd hd (by decide)

theorem takeWhile_isDigit_all {l : List Char}
    (h : ∀ c ∈ l, c.isDigit = true) : l.takeWhile Char.isDigit = l := by
  induction l with
  | nil => rfl
  | cons c t ih =>
    have hc := h c (List.mem_cons_self _ _)
    simp [List.takeWhile_cons, hc, ih fun d hd => h d (List.mem_cons_of_mem _ hd)]

/-- A nonempty all-digit character list parses through the decimal arm of
`parseIntJS` back to its `decFold` value, with no whitespace skipped, no
sign consumed and the hex arm never taken. -/
theorem parseIntJS_digits (cs : List Char) (hne : cs ≠ [])
    (hd : ∀ c ∈ cs, c.isDigit = true) :
    parseIntJS ⟨cs⟩ = .int (decFold cs) := by
  obtain ⟨c, t, rfl⟩ := List.exists_cons_of_ne_nil hne
  have hcd : c.isDigit = true := hd c (List.mem_cons_self _ _)
  have hws := isDigit_not_whitespace hcd
  have hcne : c ≠ '-' := isDigit_ne hcd (by decide)
  have hcnp : c ≠ '+' := isDigit_ne hcd (by decide)
  have hdv : decValOfChars (c :: t) = some (decFold (c :: t)) := by
    rw [decValOfChars, takeWhile_isDigit_all hd]
    simp
  cases t with
  | nil =>
    simp [parseIntJS, List.dropWhile_cons, hws, hcne, hcnp, hdv]
  | cons c2 t2 =>
    have h2 : c2.isDigit = true := hd c2 (by simp)
    have h2x : c2 ≠ 'x' := isDigit_ne h2 (by decide)
    have h2X : c2 ≠ 'X' := isDigit_ne h2 (by decide)
    simp [parseIntJS, List.dropWhile_cons, hws, hcne, hcnp, h2x, h2X, hdv]

/-- A nonempty all-digit character list preceded by a minus sign parses to
the negated `decFold` value. -/
theorem parseIntJS_neg_digits (cs : List Char) (hne : cs ≠ [])
    (hd : ∀ c ∈ cs, c.isDigit = true) :
    parseIntJS ⟨'-' :: cs⟩ = .int (-(decFold cs : Int)) := by
  obtain ⟨c, t, rfl⟩ := List.exists_cons_of_ne_nil hne
  have hcd : c.isDigit = true := hd c (List.mem_cons_self _ _)
  have hdv : decValOfChars (c :: t) = some (decFold (c :: t)) := by
    rw [decValOfChars, takeWhile_isDigit_all hd]
    simp
  cases t with
  | nil =>
    simp [parseIntJS, List.dropWhile_cons, hdv]
  | cons c2 t2 =>
    have h2 : c2.isDigit = true := hd c2 (by simp)
    have h2x : c2 ≠ 'x' := isDigit_ne h2 (by decide)
    have h2X : c2 ≠ 'X' := isDigit_ne h2 (by decide)
    simp [parseIntJS, List.dropWhile_cons, h2x, h2X, hdv]

/-- `parseInt` is a left inverse of integer `toString`: decoding the printed
form of any integer recovers it. -/
theorem parseIntJS_numToString (v : Int) :
    parseIntJS (numToString (.int v)) = .int v := by
  by_cases hv : v < 0
  · have hstr : numToString (.int v) = ⟨'-' :: natToChars v.natAbs⟩ := by
      simp only [numToString, if_pos hv, natToStr]
      rfl
    rw [hstr, parseIntJS_neg_digits _ (natToChars_ne_nil _) (natToChars_digits _),
      decFold_natToChars]
    congr 1
    omega
  · simp only [numToString, if_neg hv, natToStr]
    rw [parseIntJS_digits _ (natToChars_ne_nil v.toNat) (natToChars_digits v.toNat),
      decFold_natToChars]
    congr 1
    omega

/-- The decimal form of an integer is never the empty string. -/
theorem numToString_int_ne_empty (v : Int) : numToString (.int v) ≠ "" := by
  simp only [numToString]
  split_ifs with hv
  · intro h
    have : ('-' :: natToChars v.natAbs) = [] := congrArg String.data h
    simp at this
  · intro h
    exact natToChars_ne_nil v.toNat (congrArg String.data h)

/-! ## Lookup lemmas for encoded parameter lists -/

theorem getP_append_none {xs : Params} {key : String} (ys : Params)
    (h : getP xs key = none) : getP (xs ++ ys) key = getP ys key := by
  induction xs with
  | nil => rfl
  | cons kv rest ih =>
    obtain ⟨k, v⟩ := kv
    by_cases hk : k = key
    · rw [getP, if_pos hk] at h
      exact absurd h (by simp)
    · have h2 : getP rest key = none := by
        rw [getP, if_neg hk] at h
        exact h
      rw [List.cons_append, getP, if_neg hk]
      exact ih h2

theorem getP_optParam_append (b : Bool) (k v key : String) (rest : Params) :
    getP (optParam b k v ++ rest) key =
      if k = key then (if b then some v else getP rest key)
      else getP rest key := by
  cases b <;> simp [optParam, getP]

theorem getP_optParam (b : Bool) (k v key : String) :
    getP (optParam b k v) key =
      if k = key then (if b then some v else none) else none := by
  cases b <;> simp [optParam, getP]

/-! ## Comma join/split round-trip -/

theorem splitCommaCore_no_comma (cs : List Char) (h : ',' ∉ cs) :
    splitCommaCore cs = [cs] := by
  induction cs with
  | nil => rfl
  | cons c t ih =>
    have hc : c ≠ ',' := fun he => h (he ▸ List.mem_cons_self _ _)
    have ht : ',' ∉ t := fun hm => h (List.mem_cons_of_mem _ hm)
    simp [splitCommaCore, hc, ih ht]

theorem splitCommaCore_append (x t : List Char) (h : ',' ∉ x) :
    splitCommaCore (x ++ ',' :: t) = x :: splitCommaCore t := by
  induction x with
  | nil => simp [splitCommaCore]
  | cons c x2 ih =>
    have hc : c ≠ ',' := fun he => h (he ▸ List.mem_cons_self _ _)
    have hx2 : ',' ∉ x2 := fun hm => h (List.mem_cons_of_mem _ hm)
    rw [List.cons_append, splitCommaCore, if_neg hc, ih hx2]

theorem splitCommaCore_joinCommaCore (l : List (List Char))
    (h : ∀ x ∈ l, ',' ∉ x) (hne : l ≠ []) :
    splitCommaCore (joinCommaCore l) = l := by
  induction l with
  | nil => exact absurd rfl hne
  | cons x rest ih =>
    cases rest with
    | nil =>
      exact splitCommaCore_no_comma x (h x (List.mem_cons_self _ _))
    | cons y r2 =>
      have hx : ',' ∉ x := h x (List.mem_cons_self _ _)
      have hr : ∀ z ∈ y :: r2, ',' ∉ z := fun z hz => h z (List.mem_cons_of_mem _ hz)
      rw [joinCommaCore, splitCommaCore_append _ _ hx, ih hr (by simp)]

theorem splitComma_joinComma (l : List String)
    (h : ∀ x ∈ l, ',' ∉ x.data) (hne : l ≠ []) :
    splitComma (joinComma l) = l := by
  have hmap : ∀ x ∈ l.map String.data, ',' ∉ x := by
    intro x hx
    rcases List.mem_map.mp hx with ⟨s, hs, rfl⟩
    exact h s hs
  have hmn : l.map String.data ≠ [] := by
    simpa using hne
  simp only [splitComma, joinComma]
  rw [splitCommaCore_joinCommaCore _ hmap hmn, List.map_map]
  have : ((fun cs => (⟨cs⟩ : String)) ∘ String.data) = id := by
    funext s
    rfl
  rw [this, List.map_id]

theorem joinComma_ne_empty (l : List String) (hne : l ≠ [])
    (hns : l ≠ [""]) : joinComma l ≠ "" := by
  intro he
  have hd : joinCommaCore (l.map String.data) = [] := congrArg String.data he
  cases l with
  | nil => exact hne rfl
  | cons x rest =>
    cases rest with
    | nil =>
      have hx : x.data = [] := by simpa [joinCommaCore] using hd
      apply hns
      have : x = "" := by
        cases x
        simp_all
      rw [this]
    | cons y r2 =>
      simp [joinCommaCore] at hd

/-! ## The numbered query keys never collide with the other parameters -/

theorem qKey_data (i : Nat) : (qKey i).data = 'q' :: natToChars i := rfl

theorem fKey_data (i : Nat) : (fKey i).data = 'f' :: natToChars i := rfl

/-- A key whose first character is neither `q` nor `f` is none of the
numbered search-box keys. -/
theorem noQF_of_heads (K : String) (hq : K.data.head? ≠ some 'q')
    (hf : K.data.head? ≠ some 'f') : ∀ i, K ≠ qKey i ∧ K ≠ fKey i := by
  intro i
  constructor
  · intro he
    apply hq
    rw [he, qKey_data]
    rfl
  · intro he
    apply hf
    rw [he, fKey_data]
    rfl

/-- A key starting with `f` whose second character is not a digit is none of
the numbered search-box keys. -/
theorem noQF_f (K : String) (c : Char) (cs : List Char)
    (hd : K.data = 'f' :: c :: cs) (hc : c.isDigit = false) :
    ∀ i, K ≠ qKey i ∧ K ≠ fKey i := by
  intro i
  constructor
  · intro he
    have h2 : ('f' :: c :: cs : List Char) = 'q' :: natToChars i := by
      rw [← hd, he, qKey_data]
    injection h2 with h3 _
    exact absurd h3 (by decide)
  · intro he
    have h2 : ('f' :: c :: cs : List Char) = 'f' :: natToChars i := by
      rw [← hd, he, fKey_data]
    have h3 : c :: cs = natToChars i := by injection h2
    have h4 : c.isDigit = true :=
      natToChars_digits i c (by rw [← h3]; exact List.mem_cons_self _ _)
    rw [hc] at h4
    exact absurd h4 (by decide)

/-- The legacy key `q` is shorter than every numbered key. -/
theorem noQF_legacy : ∀ i, ("q" : String) ≠ qKey i ∧ ("q" : String) ≠ fKey i := by
  intro i
  constructor
  · intro he
    have h2 := congrArg String.data he
    rw [qKey_data] at h2
    have h3 : (['q'] : List Char) = 'q' :: natToChars i := h2
    have h4 : ([] : List Char) = natToChars i := by injection h3
    exact natToChars_ne_nil i h4.symm
  · intro he
    have h2 := congrArg String.data he
    rw [fKey_data] at h2
    have h3 : (['q'] : List Char) = 'f' :: natToChars i := h2
    injection h3 with h4 _
    exact absurd h4 (by decide)

/-- The search-box segment of the URL never stores any key other than the
numbered `q<i>`/`f<i>` pairs. -/
theorem getP_encQueriesFrom_none (K : String)
    (h : ∀ i, K ≠ qKey i ∧ K ≠ fKey i) :
    ∀ (i : Nat) (qs : List SearchQuery), getP (encQueriesFrom i qs) K = none := by
  intro i qs
  induction qs generalizing i with
  | nil => rfl
  | cons q rest ih =>
    rw [encQueriesFrom]
    apply getP_append_none _ ?_ |>.trans (ih (i + 1))
    rw [encQueryOne]
    split_ifs with ht
    · rw [getP, if_neg (fun he => ((h (i + 1)).1 he.symm)),
        getP_optParam]
      rw [if_neg (fun he => ((h (i + 1)).2 he.symm))]
    · rfl

theorem getP_encQueriesFrom_append (K : String)
    (h : ∀ i, K ≠ qKey i ∧ K ≠ fKey i) (i : Nat) (qs : List SearchQuery)
    (rest : Params) :
    getP (encQueriesFrom i qs ++ rest) K = getP rest K :=
  getP_append_none _ (getP_encQueriesFrom_none K h i qs)

/-! ## What `updateURL` stores under each parameter key -/

theorem getP_encode_library (s : SearchState) :
    getP (updateURL s) "library" =
      if truthyS s.library then some s.library else none := by
  rw [updateURL, getP_encQueriesFrom_append _ (noQF_of_heads _ (by decide) (by decide))]
  simp +decide [getP_optParam_append, getP_optParam]

theorem getP_encode_collection (s : SearchState) :
    getP (updateURL s) "collection" =
      if !s.collection.isEmpty then some (joinComma s.collection) else none := by
  rw [updateURL, getP_encQueriesFrom_append _ (noQF_of_heads _ (by decide) (by decide))]
  simp +decide [getP_optParam_append, getP_optParam]

theorem getP_encode_subjects (s : SearchState) :
    getP (updateURL s) "subjects" =
      if !s.subjects.isEmpty then some (joinComma s.subjects) else none := by
  rw [updateURL, getP_encQueriesFrom_append _ (noQF_of_heads _ (by decide) (by decide))]
  simp +decide [getP_optParam_append, getP_optParam]

theorem getP_encode_authors (s : SearchState) :
    getP (updateURL s) "authors" =
      if !s.authors.isEmpty then some (joinComma s.authors) else none := by
  rw [updateURL, getP_encQueriesFrom_append _ (noQF_of_heads _ (by decide) (by decide))]
  simp +decide [getP_optParam_append, getP_optParam]

theorem getP_encode_languages (s : SearchState) :
    getP (updateURL s) "languages" =
      if !s.languages.isEmpty then some (joinComma s.languages) else none := by
  rw [updateURL, getP_encQueriesFrom_append _ (noQF_of_heads _ (by decide) (by decide))]
  simp +decide [getP_optParam_append, getP_optParam]

theorem getP_encode_shelf (s : SearchState) :
    getP (updateURL s) "shelf" =
      if truthyS s.shelfMark then some s.shelfMark else none := by
  rw [updateURL, getP_encQueriesFrom_append _ (noQF_of_heads _ (by decide) (by decide))]
  simp +decide [getP_optParam_append, getP_optParam]

theorem getP_encode_from (s : SearchState) :
    getP (updateURL s) "from" =
      if truthyO s.dateFrom then some (numToString (s.dateFrom.getD .nan))
      else none := by
  rw [updateURL, getP_encQueriesFrom_append _ (noQF_f _ 'r' ['o', 'm'] rfl (by decide))]
  simp +decide [getP_optParam_append, getP_optParam]

theorem getP_encode_to (s : SearchState) :
    getP (updateURL s) "to" =
      if truthyO s.dateTo then some (numToString (s.dateTo.getD .nan))
      else none := by
  rw [updateURL, getP_encQueriesFrom_append _ (noQF_of_heads _ (by decide) (by decide))]
  simp +decide [getP_optParam_append, getP_optParam]

theorem getP_encode_undated (s : SearchState) :
    getP (updateURL s) "undated" =
      if !s.includeUndated then some "false" else none := by
  rw [updateURL, getP_encQueriesFrom_append _ (noQF_of_heads _ (by decide) (by decide))]
  simp +decide [getP_optParam_append, getP_optParam]

theorem getP_encode_sort (s : SearchState) :
    getP (updateURL s) "sort" =
      if s.sortBy != "id" then some s.sortBy else none := by
  rw [updateURL, getP_encQueriesFrom_append _ (noQF_of_heads _ (by decide) (by decide))]
  simp +decide [getP_optParam_append, getP_optParam]

theorem getP_encode_page (s : SearchState) :
    getP (updateURL s) "page" =
      if s.page.gtB (.int 1) then some (numToString s.page) else none := by
  rw [updateURL, getP_encQueriesFrom_append _ (noQF_of_heads _ (by decide) (by decide))]
  simp +decide [getP_optParam_append, getP_optParam]

theorem getP_encode_per (s : SearchState) :
    getP (updateURL s) "per" =
      if s.perPage.neB (.int 25) then some (numToString s.perPage) else none := by
  rw [updateURL, getP_encQueriesFrom_append _ (noQF_of_heads _ (by decide) (by decide))]
  simp +decide [getP_optParam_append, getP_optParam]

theorem getP_encode_legacy (s : SearchState) :
    getP (updateURL s) "q" = none := by
  rw [updateURL, getP_encQueriesFrom_append _ noQF_legacy]
  simp +decide [getP_optParam_append, getP_optParam]

/-! ## Representable states and the parseURLParams-of-updateURL field lemmas -/

/-- The shapes of term lists the URL can faithfully carry: either the single
default empty all-fields term, or one to three terms with non-empty text and
non-empty scope names. -/
def queriesRep (qs : List SearchQuery) : Prop :=
  qs = [⟨"", "all"⟩] ∨
    (qs ≠ [] ∧ qs.length ≤ 3 ∧ ∀ q ∈ qs, q.query ≠ "" ∧ q.field ≠ "")

/-- Representable multi-select values: no element contains the separator
comma, and the list is not the single empty string (whose join is falsy). -/
def listRep (l : List String) : Prop := (∀ x ∈ l, ',' ∉ x.data) ∧ l ≠ [""]

/-- Representable date bounds: absent, or a non-zero integer (zero and `NaN`
are falsy and dropped by the encoder). -/
def dateRep (d : Option JSNum) : Prop :=
  d = none ∨ ∃ v : Int, d = some (.int v) ∧ v ≠ 0

/-- A search state in which every field carrying a non-default value is
representable in the URL: representable terms, filter lists and date bounds,
an integer page of at least 1, an integer page size, and a non-empty sort
key. -/
def Representable (s : SearchState) : Prop :=
  queriesRep s.queries ∧ listRep s.collection ∧ listRep s.subjects ∧
  listRep s.authors ∧ listRep s.languages ∧ dateRep s.dateFrom ∧
  dateRep s.dateTo ∧ (∃ p : Int, s.page = .int p ∧ 1 ≤ p) ∧
  (∃ pp : Int, s.perPage = .int pp) ∧ s.sortBy ≠ ""

theorem jsOrS_guard (x : String) :
    jsOrS (if truthyS x then some x else none) "" = x := by
  by_cases h : x = "" <;> simp [truthyS, jsOrS, h]

theorem jsOrS_sort (x : String) (h : x ≠ "") :
    jsOrS (if x != "id" then some x else none) "id" = x := by
  by_cases hid : x = "id" <;> simp [hid, jsOrS, h]

theorem jsOrS_field (f : String) (h : f ≠ "") :
    jsOrS (if f != "all" then some f else none) "all" = f := by
  by_cases hf : f = "all" <;> simp [hf, jsOrS, h]

theorem jsOrS_field2 (f : String) (h : f ≠ "") :
    jsOrS (if f = "all" then none else some f) "all" = f := by
  by_cases hf : f = "all" <;> simp [hf, jsOrS, h]

theorem decList_guard (l : List String) (h : listRep l) :
    (match (if !l.isEmpty then some (joinComma l) else none) with
      | some str => if str = "" then [] else splitComma str
      | none => []) = l := by
  obtain ⟨h1, h2⟩ := h
  cases l with
  | nil => simp
  | cons x rest =>
    have hne : (x :: rest : List String) ≠ [] := by simp
    have hj := joinComma_ne_empty _ hne h2
    simp only [List.isEmpty_cons, Bool.not_false, if_pos]
    rw [if_neg hj, splitComma_joinComma _ h1 hne]

theorem decDate_guard (d : Option JSNum) (h : dateRep d) :
    (match (if truthyO d then some (numToString (d.getD .nan)) else none) with
      | some str => if str = "" then none else some (parseIntJS str)
      | none => none) = d := by
  rcases h with rfl | ⟨v, rfl, hv⟩
  · simp [truthyO]
  · have ht : truthyO (some (.int v)) = true := by
      simp [truthyO, JSNum.truthy, hv]
    rw [ht]
    simp only [if_true, Option.getD_some]
    rw [if_neg (numToString_int_ne_empty v), parseIntJS_numToString]

theorem decPage_guard (pa : Int) (h : 1 ≤ pa) :
    (match (if JSNum.gtB (.int pa) (.int 1) then some (numToString (.int pa))
        else none) with
      | some str => if str = "" then JSNum.int 1 else parseIntJS str
      | none => JSNum.int 1) = .int pa := by
  by_cases hgt : pa > 1
  · have : JSNum.gtB (.int pa) (.int 1) = true := by
      simp [JSNum.gtB, hgt]
    rw [this]
    simp only [if_true]
    rw [if_neg (numToString_int_ne_empty pa), parseIntJS_numToString]
  · have he : pa = 1 := by omega
    have : JSNum.gtB (.int pa) (.int 1) = false := by
      simp [JSNum.gtB]
      omega
    rw [this]
    simp [he]

theorem decPer_guard (pp : Int) :
    (match (if JSNum.neB (.int pp) (.int 25) then some (numToString (.int pp))
        else none) with
      | some str => if str = "" then JSNum.int 25 else parseIntJS str
      | none => JSNum.int 25) = .int pp := by
  by_cases he : pp = 25
  · have : JSNum.neB (.int pp) (.int 25) = false := by
      simp [JSNum.neB, he]
    rw [this]
    simp [he]
  · have : JSNum.neB (.int pp) (.int 25) = true := by
      simp [JSNum.neB, he]
    rw [this]
    simp only [if_true]
    rw [if_neg (numToString_int_ne_empty pp), parseIntJS_numToString]

theorem decUndated_guard (b : Bool) :
    ((if !b then some "false" else none) != some "false") = b := by
  cases b <;> simp

/-! ## The search-term list survives the URL round-trip -/

theorem truthyS_of_ne {x : String} (h : x ≠ "") : truthyS x = true := by
  simp [truthyS, h]

theorem decQueries_encode (s : SearchState) (h : queriesRep s.queries) :
    decQueries (updateURL s) = s.queries := by
  rcases h with hdef | ⟨hne, hlen, hall⟩
  · -- the single default empty term encodes to nothing and decodes back
    have henc : encQueriesFrom 0 s.queries = [] := by
      rw [hdef]
      rfl
    have h1 : getP (updateURL s) (qKey 1) = none ∧ getP (updateURL s) (qKey 2) = none ∧
        getP (updateURL s) (qKey 3) = none := by
      refine ⟨?_, ?_, ?_⟩ <;>
        (rw [updateURL, henc]
         simp +decide [getP_optParam_append, getP_optParam])
    simp [decQueries, decQueryAt, h1.1, h1.2.1, h1.2.2, getP_encode_legacy, hdef]
  · match hq : s.queries, hlen with
    | [], _ => exact absurd hq hne
    | [a], _ =>
      have ha : a.query ≠ "" := (hall a (by rw [hq]; simp)).1
      have haf : a.field ≠ "" := (hall a (by rw [hq]; simp)).2
      have e1 : getP (updateURL s) (qKey 1) = some a.query := by
        rw [updateURL, hq]
        simp +decide [encQueriesFrom, encQueryOne, truthyS_of_ne ha, getP,
          getP_optParam_append, getP_optParam]
      have ef1 : getP (updateURL s) (fKey 1) =
          if a.field != "all" then some a.field else none := by
        rw [updateURL, hq]
        simp +decide [encQueriesFrom, encQueryOne, truthyS_of_ne ha, getP,
          getP_optParam_append, getP_optParam]
      have e2 : getP (updateURL s) (qKey 2) = none := by
        rw [updateURL, hq]
        simp +decide [encQueriesFrom, encQueryOne, truthyS_of_ne ha, getP,
          getP_optParam_append, getP_optParam]
      have e3 : getP (updateURL s) (qKey 3) = none := by
        rw [updateURL, hq]
        simp +decide [encQueriesFrom, encQueryOne, truthyS_of_ne ha, getP,
          getP_optParam_append, getP_optParam]
      simp [decQueries, decQueryAt, e1, ef1, e2, e3, ha, jsOrS_field _ haf,
        jsOrS_field2 _ haf]
    | [a, b], _ =>
      have ha : a.query ≠ "" := (hall a (by rw [hq]; simp)).1
      have haf : a.field ≠ "" := (hall a (by rw [hq]; simp)).2
      have hb : b.query ≠ "" := (hall b (by rw [hq]; simp)).1
      have hbf : b.field ≠ "" := (hall b (by rw [hq]; simp)).2
      have e1 : getP (updateURL s) (qKey 1) = some a.query := by
        rw [updateURL, hq]
        simp +decide [encQueriesFrom, encQueryOne, truthyS_of_ne ha,
          truthyS_of_ne hb, getP, getP_optParam_append, getP_optParam]
      have ef1 : getP (updateURL s) (fKey 1) =
          if a.field != "all" then some a.field else none := by
        rw [updateURL, hq]
        simp +decide [encQueriesFrom, encQueryOne, truthyS_of_ne ha,
          truthyS_of_ne hb, getP, getP_optParam_append, getP_optParam]
      have e2 : getP (updateURL s) (qKey 2) = some b.query := by
        rw [updateURL, hq]
        simp +decide [encQueriesFrom, encQueryOne, truthyS_of_ne ha,
          truthyS_of_ne hb, getP, getP_optParam_append, getP_optParam]
      have ef2 : getP (updateURL s) (fKey 2) =
          if b.field != "all" then some b.field else none := by
        rw [updateURL, hq]
        simp +decide [encQueriesFrom, encQueryOne, truthyS_of_ne ha,
          truthyS_of_ne hb, getP, getP_optParam_append, getP_optParam]
      have e3 : getP (updateURL s) (qKey 3) = none := by
        rw [updateURL, hq]
        simp +decide [encQueriesFrom, encQueryOne, truthyS_of_ne ha,
          truthyS_of_ne hb, getP, getP_optParam_append, getP_optParam]
      simp [decQueries, decQueryAt, e1, ef1, e2, ef2, e3, ha, hb,
        jsOrS_field _ haf, jsOrS_field _ hbf, jsOrS_field2 _ haf,
        jsOrS_field2 _ hbf]
    | [a, b, c], _ =>
      have ha : a.query ≠ "" := (hall a (by rw [hq]; simp)).1
      have haf : a.field ≠ "" := (hall a (by rw [hq]; simp)).2
      have hb : b.query ≠ "" := (hall b (by rw [hq]; simp)).1
      have hbf : b.field ≠ "" := (hall b (by rw [hq]; simp)).2
      have hc : c.query ≠ "" := (hall c (by rw [hq]; simp)).1
      have hcf : c.field ≠ "" := (hall c (by rw [hq]; simp)).2
      have e1 : getP (updateURL s) (qKey 1) = some a.query := by
        rw [updateURL, hq]
        simp +decide [encQueriesFrom, encQueryOne, truthyS_of_ne ha,
          truthyS_of_ne hb, truthyS_of_ne hc, getP, getP_optParam_append,
          getP_optParam]
      have ef1 : getP (updateURL s) (fKey 1) =
          if a.field != "all" then some a.field else none := by
        rw [updateURL, hq]
        simp +decide [encQueriesFrom, encQueryOne, truthyS_of_ne ha,
          truthyS_of_ne hb, truthyS_of_ne hc, getP, getP_optParam_append,
          getP_optParam]
      have e2 : getP (updateURL s) (qKey 2) = some b.query := by
        rw [updateURL, hq]
        simp +decide [encQueriesFrom, encQueryOne, truthyS_of_ne ha,
          truthyS_of_ne hb, truthyS_of_ne hc, getP, getP_optParam_append,
          getP_optParam]
      have ef2 : getP (updateURL s) (fKey 2) =
          if b.field != "all" then some b.field else none := by
        rw [updateURL, hq]
        simp +decide [encQueriesFrom, encQueryOne, truthyS_of_ne ha,
          truthyS_of_ne hb, truthyS_of_ne hc, getP, getP_optParam_append,
          getP_optParam]
      have e3 : getP (updateURL s) (qKey 3) = some c.query := by
        rw [updateURL, hq]
        simp +decide [encQueriesFrom, encQueryOne, truthyS_of_ne ha,
          truthyS_of_ne hb, truthyS_of_ne hc, getP, getP_optParam_append,
          getP_optParam]
      have ef3 : getP (updateURL s) (fKey 3) =
          if c.field != "all" then some c.field else none := by
        rw [updateURL, hq]
        simp +decide [encQueriesFrom, encQueryOne, truthyS_of_ne ha,
          truthyS_of_ne hb, truthyS_of_ne hc, getP, getP_optParam_append,
          getP_optParam]
      simp [decQueries, decQueryAt, e1, ef1, e2, ef2, e3, ef3, ha, hb, hc,
        jsOrS_field _ haf, jsOrS_field _ hbf, jsOrS_field _ hcf,
        jsOrS_field2 _ haf, jsOrS_field2 _ hbf, jsOrS_field2 _ hcf]

/-! ## Claim C1: the URL codec round-trip -/

/-- Claim C1: decoding the query string produced by encoding any
representable state yields the original state back, and the all-defaults
state encodes to the empty query string. -/
theorem urlCodec_roundtrip :
    (∀ s : SearchState, Representable s → parseURLParams (updateURL s) = s) ∧
    updateURL defaultState = [] ∧
    paramsToString (updateURL defaultState) = "" := by
  refine ⟨?_, by decide, by decide⟩
  intro s hs
  cases s with
  | mk queries library collection subjects authors languages shelfMark
      dateFrom dateTo includeUndated sortBy page perPage =>
    obtain ⟨hq, hcol, hsub, haut, hlang, hdf, hdt, ⟨pa, hpa, hpa1⟩,
      ⟨pp, hpp⟩, hsort⟩ := hs
    simp only [parseURLParams, SearchState.mk.injEq]
    refine ⟨?_, ?_, ?_, ?_, ?_, ?_, ?_, ?_, ?_, ?_, ?_, ?_, ?_⟩
    · exact decQueries_encode _ hq
    · rw [getP_encode_library]
      exact jsOrS_guard library
    · simp only [decList]
      rw [getP_encode_collection]
      exact decList_guard _ hcol
    · simp only [decList]
      rw [getP_encode_subjects]
      exact decList_guard _ hsub
    · simp only [decList]
      rw [getP_encode_authors]
      exact decList_guard _ haut
    · simp only [decList]
      rw [getP_encode_languages]
      exact decList_guard _ hlang
    · rw [getP_encode_shelf]
      exact jsOrS_guard shelfMark
    · simp only [decDate]
      rw [getP_encode_from]
      exact decDate_guard _ hdf
    · simp only [decDate]
      rw [getP_encode_to]
      exact decDate_guard _ hdt
    · rw [getP_encode_undated]
      exact decUndated_guard includeUndated
    · rw [getP_encode_sort]
      exact jsOrS_sort _ hsort
    · simp only [decNum]
      subst hpa
      rw [getP_encode_page]
      exact decPage_guard pa hpa1
    · simp only [decNum]
      subst hpp
      rw [getP_encode_per]
      exact decPer_guard pp

/-- A concrete fully-populated representable state. -/
def sampleState : SearchState :=
  { queries := [⟨"kit?b", "title"⟩, ⟨"nur", "all"⟩],
    library := "Suleymaniye", collection := ["Fatih", "Ayasofya"],
    subjects := [], authors := ["Ibn Sina"], languages := ["Arabic"],
    shelfMark := "330", dateFrom := some (.int 1200),
    dateTo := some (.int 1300), includeUndated := false,
    sortBy := "date_desc", page := .int 3, perPage := .int 50 }

/-- Witness for C1: a concrete state with every field off its default is
representable and survives the updateURL/parseURLParams round-trip. -/
theorem urlCodec_roundtrip_witness :
    Representable sampleState ∧ parseURLParams (updateURL sampleState) = sampleState := by
  have hrep : Representable sampleState := by
    refine ⟨Or.inr ⟨by decide, by decide, by decide⟩,
      ⟨by decide, by decide⟩, ⟨by decide, by decide⟩, ⟨by decide, by decide⟩,
      ⟨by decide, by decide⟩, Or.inr ⟨1200, rfl, by decide⟩,
      Or.inr ⟨1300, rfl, by decide⟩, ⟨3, rfl, by decide⟩, ⟨50, rfl⟩, by decide⟩
  exact ⟨hrep, urlCodec_roundtrip.1 sampleState hrep⟩

/-! ## Claim C3: malformed numeric parameters -/

/-- Claim C3 counterexample: decoding malformed numeric text does not fall
back to the defaults — `page=abc` decodes to `NaN`, not 1, `per=abc` to
`NaN`, not 25, and malformed date bounds to `NaN`, not `null`. -/
theorem decode_malformed_counterexample :
    (parseURLParams [("from", "abc"), ("to", "abc"), ("page", "abc"),
      ("per", "abc")]).page ≠ JSNum.int 1 ∧
    (parseURLParams [("from", "abc"), ("to", "abc"), ("page", "abc"),
      ("per", "abc")]).perPage ≠ JSNum.int 25 ∧
    (parseURLParams [("from", "abc"), ("to", "abc"), ("page", "abc"),
      ("per", "abc")]).dateFrom ≠ none ∧
    (parseURLParams [("from", "abc"), ("to", "abc"), ("page", "abc"),
      ("per", "abc")]).dateTo ≠ none := by
  decide

/-- Claim C3 (amended): decoding never throws (the decoder is a total
function); on malformed (non-numeric) text in `from`, `to`, `page` and
`per` every other field still decodes to its default, but the four numeric
fields become the JavaScript `NaN` sentinel — the date bounds become `NaN`
values (treated as unset by the truthy guards downstream) rather than
`null`, and page and page size become `NaN` rather than 1 and 25. -/
theorem decode_malformed_numeric (str : String) (h1 : str ≠ "")
    (h2 : parseIntJS str = .nan) :
    parseURLParams [("from", str), ("to", str), ("page", str), ("per", str)] =
      { defaultState with
        dateFrom := some .nan, dateTo := some .nan,
        page := .nan, perPage := .nan } := by
  simp +decide [parseURLParams, decQueries, decQueryAt, decList, decDate, decNum,
    getP, jsOrS, defaultState, h1, h2]

/-- Witness for C3 at the malformed input `"abc"`. -/
theorem decode_malformed_witness :
    ("abc" : String) ≠ "" ∧ parseIntJS "abc" = .nan ∧
    parseURLParams [("from", "abc"), ("to", "abc"), ("page", "abc"), ("per", "abc")] =
      { defaultState with
        dateFrom := some .nan, dateTo := some .nan,
        page := .nan, perPage := .nan } :=
  ⟨by decide, by decide, decode_malformed_numeric "abc" (by decide) (by decide)⟩

end YazScrape
